import Mathlib

/-
Shallow embedding of the two-asset constant-product exchange pool exercised by
the repository's test driver (src/scripts/main.ts).  The pool contract itself
(terraswap_pair.wasm) ships only as a compiled artifact, so the pool logic is
modelled from the specification; the test driver pins all concrete constants
(fee rate 0.3%, tax rate 0.1%, the worked swap and liquidity numbers).
-/

namespace TerraSwap

/-- Error taxonomy of the pool, spec section 7, plus a constructor for aborts
raised at the external-collaborator boundary (spec section 6). -/
inductive PoolError where
  | invalidAsset
  | zeroAmount
  | zeroLiquidity
  | insufficientReserve
  | maxSpreadExceeded
  | arithmeticOverflow
  | externalFailure
deriving DecidableEq

/-- Pool plus token-ledger state.  The pool holds a cw20 reserve (the mock
MIR token) and a native uusd reserve; holders are addressed by naturals.
`lpBal` is the liquidity-share ledger, `mirBal` and `uusdBal` are the trader
asset ledgers kept by the external token interface. -/
@[ext]
structure PoolState where
  reserveMir : Nat
  reserveUusd : Nat
  totalShares : Nat
  lpBal : Nat → Nat
  mirBal : Nat → Nat
  uusdBal : Nat → Nat

/-- Integer precision available to the curve math (Uint128). -/
def UINT128 : Nat := 2 ^ 128

/-- Modelled from the spec: Tax Adjustment `deduct_tax` (section 4.4) of the
external ledger, missing from src/ together with the pair contract.  The rate
is pinned to 0.1% by the worked example in the test driver
(deductTax 5982000 = 5976023): the recipient gets floor(amount / 1.001). -/
def deductTax (amount : Nat) : Nat :=
  amount * 1000 / 1001

/-- Modelled from the spec: Tax Adjustment `add_tax` (section 4.4), the gross
ledger debit needed so that `amount` exits after tax: amount + floor(amount * 0.001),
pinned by addTax 5976023 = 5981999 in the test driver. -/
def addTax (amount : Nat) : Nat :=
  amount + amount / 1000

/-- Result of the Pricing Engine: the raw return before tax, and the fee. -/
structure SwapOutcome where
  returnAmount : Nat
  fee : Nat
deriving DecidableEq

/-- Modelled from the spec: the Pricing Engine (section 4.3), missing from
src/ together with the pair contract.  k = R_in * R_out; the raw return is
R_out - floor(k / (R_in + A)); the fee is floor(return * 0.003) with the 0.3%
fee rate pinned by the test driver; an offer that overflows the available
integer precision fails with ArithmeticOverflow. -/
def computeSwap (rIn rOut offerAmount : Nat) : Except PoolError SwapOutcome :=
  if UINT128 ≤ rIn + offerAmount then .error .arithmeticOverflow
  else
    let k := rIn * rOut
    let ret := rOut - k / (rIn + offerAmount)
    .ok ⟨ret, ret * 3 / 1000⟩

/-- Modelled from the spec: the spread check (section 4.3 step 4).  The spread
1 - (return/A)/(R_out/R_in) = (A*R_out - return*R_in) / (A*R_out) exceeds the
tolerance msNum/msDen exactly when the cross-multiplied comparison holds
(Nat subtraction saturates at zero, matching a non-positive spread). -/
def spreadExceeded (rIn rOut offerAmount ret msNum msDen : Nat) : Bool :=
  (offerAmount * rOut - ret * rIn) * msDen > offerAmount * rOut * msNum

/-- Modelled from the spec: the Pool Controller swap operation (section 4.5),
missing from src/ together with the pair contract.  The trader offers the MIR
asset and is paid uusd, as in the test driver.  Checks: pool Active, pricing
(with overflow check), optional max-spread tolerance, reserve stays positive,
external transfer of the offer; then the input reserve grows by the full offer,
the output reserve shrinks by the add_tax-adjusted gross debit, and the trader
receives the net-of-fee-and-tax amount.  Returns the new state together with
the pre-tax return amount and the fee. -/
def swap (s : PoolState) (trader offerAmount : Nat) (maxSpread : Option (Nat × Nat)) :
    Except PoolError (PoolState × Nat × Nat) :=
  if s.reserveMir = 0 ∨ s.reserveUusd = 0 then .error .zeroLiquidity
  else
    match computeSwap s.reserveMir s.reserveUusd offerAmount with
    | .error e => .error e
    | .ok out =>
      let spreadBad :=
        match maxSpread with
        | none => false
        | some (n, d) => spreadExceeded s.reserveMir s.reserveUusd offerAmount out.returnAmount n d
      if spreadBad then .error .maxSpreadExceeded
      else
        let net := deductTax (out.returnAmount - out.fee)
        let gross := addTax net
        if s.reserveUusd ≤ gross then .error .insufficientReserve
        else if s.mirBal trader < offerAmount then .error .externalFailure
        else
          .ok ({ s with
              reserveMir := s.reserveMir + offerAmount
              reserveUusd := s.reserveUusd - gross
              mirBal := fun h => if h = trader then s.mirBal h - offerAmount else s.mirBal h
              uusdBal := fun h => if h = trader then s.uusdBal h + net else s.uusdBal h },
            out.returnAmount, out.fee)

/-- Modelled from the spec: Liquidity-Share Accounting mint (section 4.2):
floor(sqrt(a*b)) on the initial deposit, the floored minimum of the two
deposit/reserve ratios afterwards. -/
def mintAmount (s : PoolState) (a b : Nat) : Nat :=
  if s.totalShares = 0 then Nat.sqrt (a * b)
  else min (a * s.totalShares / s.reserveMir) (b * s.totalShares / s.reserveUusd)

/-- Modelled from the spec: the Pool Controller provide_liquidity operation
(sections 4.2 and 4.5), missing from src/ together with the pair contract.
Both offered amounts must be positive, the computed mint must be nonzero, and
the external transfers must be fundable; then both deposits are accepted in
full and the depositor is credited the minted shares. -/
def provideLiquidity (s : PoolState) (provider a b : Nat) : Except PoolError PoolState :=
  if a = 0 ∨ b = 0 then .error .zeroAmount
  else
    let minted := mintAmount s a b
    if minted = 0 then .error .zeroLiquidity
    else if s.mirBal provider < a ∨ s.uusdBal provider < b then .error .externalFailure
    else
      .ok { s with
        reserveMir := s.reserveMir + a
        reserveUusd := s.reserveUusd + b
        totalShares := s.totalShares + minted
        lpBal := fun h => if h = provider then s.lpBal h + minted else s.lpBal h
        mirBal := fun h => if h = provider then s.mirBal h - a else s.mirBal h
        uusdBal := fun h => if h = provider then s.uusdBal h - b else s.uusdBal h }

/-- Modelled from the spec: the Pool Controller withdraw_liquidity operation
(sections 4.2 and 4.5), missing from src/ together with the pair contract.
Burns S shares and pays out floor(reserve * S / total_shares) of each asset. -/
def withdrawLiquidity (s : PoolState) (holder shares : Nat) : Except PoolError PoolState :=
  if shares = 0 then .error .zeroAmount
  else if s.totalShares = 0 then .error .zeroLiquidity
  else if s.lpBal holder < shares then .error .externalFailure
  else
    let aOut := s.reserveMir * shares / s.totalShares
    let bOut := s.reserveUusd * shares / s.totalShares
    .ok { s with
      reserveMir := s.reserveMir - aOut
      reserveUusd := s.reserveUusd - bOut
      totalShares := s.totalShares - shares
      lpBal := fun h => if h = holder then s.lpBal h - shares else s.lpBal h
      mirBal := fun h => if h = holder then s.mirBal h + aOut else s.mirBal h
      uusdBal := fun h => if h = holder then s.uusdBal h + bOut else s.uusdBal h }

/-- State reached by a fallible state-returning operation: the new state on
success, the unchanged pre-call state on failure. -/
def getState (s : PoolState) (r : Except PoolError PoolState) : PoolState :=
  match r with
  | .ok s' => s'
  | .error _ => s

/-- State reached by a swap call: the new state on success, the unchanged
pre-call state on failure. -/
def getSwapState (s : PoolState) (r : Except PoolError (PoolState × Nat × Nat)) : PoolState :=
  match r with
  | .ok (s', _, _) => s'
  | .error _ => s

/-- Provide-then-withdraw round trip: provide the deposit, then immediately
withdraw every share minted by it. -/
def roundTrip (s : PoolState) (provider a b : Nat) : Except PoolError PoolState :=
  (provideLiquidity s provider a b).bind fun s1 =>
    withdrawLiquidity s1 provider (s1.totalShares - s.totalShares)

/-- The test driver's starting world: an empty pool, users 1 and 2 funded with
10000000000 uMIR each by the deployer and with native uusd by LocalTerra. -/
def initialState : PoolState where
  reserveMir := 0
  reserveUusd := 0
  totalShares := 0
  lpBal := fun _ => 0
  mirBal := fun h => if h = 1 ∨ h = 2 then 10000000000 else 0
  uusdBal := fun h => if h = 1 ∨ h = 2 then 100000000000 else 0

/-- The pool world the test driver expects after user 1 provides the initial
69000000 uMIR and 420000000 uusd. -/
def poolAfterProvide : PoolState where
  reserveMir := 69000000
  reserveUusd := 420000000
  totalShares := 170235131
  lpBal := fun h => if h = 1 then 170235131 else 0
  mirBal := fun h => if h = 1 then 9931000000 else if h = 2 then 10000000000 else 0
  uusdBal := fun h => if h = 1 then 99580000000 else if h = 2 then 100000000000 else 0

/-- The pool world the test driver expects after user 2 then swaps 1000000
uMIR: reserves (70000000, 414018001), user 2 debited the full offer and
credited the net-of-fee-and-tax uusd. -/
def poolAfterSwap : PoolState where
  reserveMir := 70000000
  reserveUusd := 414018001
  totalShares := 170235131
  lpBal := fun h => if h = 1 then 170235131 else 0
  mirBal := fun h => if h = 1 then 9931000000 else if h = 2 then 9999000000 else 0
  uusdBal := fun h => if h = 1 then 99580000000 else if h = 2 then 100005976023 else 0

/-- An Active pool used to probe the provide/withdraw round trip: reserves
(100, 100), 100 shares held by user 1, both users amply funded. -/
def unbalancedState : PoolState where
  reserveMir := 100
  reserveUusd := 100
  totalShares := 100
  lpBal := fun h => if h = 1 then 100 else 0
  mirBal := fun _ => 1000000
  uusdBal := fun _ => 1000000

deriving instance DecidableEq for Except

/-- The initial liquidity deposit's geometric mean, computed in closed form
(Nat.sqrt is defined by well-founded recursion, so its concrete values are
established through the square bounds). -/
theorem sqrt_initial : Nat.sqrt 28980000000000000 = 170235131 := by
  apply Nat.le_antisymm
  · exact Nat.le_of_lt_succ (Nat.sqrt_lt.mpr (by norm_num))
  · exact Nat.le_sqrt.mpr (by norm_num)

/-- Same value with the deposit product left unexpanded. -/
theorem sqrt_initial_prod : Nat.sqrt (69000000 * 420000000) = 170235131 := by
  have h2 : (69000000 : Nat) * 420000000 = 28980000000000000 := by norm_num
  rw [h2, sqrt_initial]

/-- The scenario deposit of the test driver produces exactly the expected
post-provide world. -/
theorem provide_scenario :
    provideLiquidity initialState 1 69000000 420000000 = .ok poolAfterProvide := by
  have hm : mintAmount initialState 69000000 420000000 = 170235131 := by
    have h2 : (69000000 : Nat) * 420000000 = 28980000000000000 := by norm_num
    simp [mintAmount, initialState, h2, sqrt_initial]
  simp only [provideLiquidity, hm]
  rw [if_neg (by decide), if_neg (by decide), if_neg (by decide), Except.ok.injEq]
  ext h
  all_goals simp [initialState, poolAfterProvide]
  all_goals by_cases h1 : h = 1 <;> by_cases h2 : h = 2 <;> simp [h1, h2]

/-- C1: from the pool state with reserves (69000000 uMIR, 420000000 uusd),
offering 1000000 uMIR yields raw return 420000000 - floor(28980000000000000 /
70000000) = 6000000 with fee floor(6000000 * 0.003) = 18000, net-of-fee
5982000; the tax step maps 5982000 to a net 5976023 received by the trader and
a gross ledger debit of 5981999, and the resulting reserves are exactly
(70000000, 414018001). -/
theorem swap_worked_example :
    (420000000 : Nat) - 28980000000000000 / 70000000 = 6000000 ∧
    computeSwap 69000000 420000000 1000000 = .ok ⟨6000000, 18000⟩ ∧
    (6000000 : Nat) * 3 / 1000 = 18000 ∧
    (6000000 : Nat) - 18000 = 5982000 ∧
    deductTax 5982000 = 5976023 ∧
    addTax 5976023 = 5981999 ∧
    (swap poolAfterProvide 2 1000000 none).map
        (fun r => (r.1.reserveMir, r.1.reserveUusd, r.1.uusdBal 2)) =
      .ok (70000000, 414018001, 100000000000 + 5976023) := by
  decide

/-- C2: the first deposit into an empty pool mints floor(sqrt(a * b)) shares
and moves both deposits into the reserves in full. -/
theorem initial_mint_sqrt (s : PoolState) (p a b : Nat)
    (h0 : s.totalShares = 0) (hra : s.reserveMir = 0) (hrb : s.reserveUusd = 0)
    (ha : a ≠ 0) (hb : b ≠ 0) (hmint : Nat.sqrt (a * b) ≠ 0)
    (hma : a ≤ s.mirBal p) (hub : b ≤ s.uusdBal p) :
    (provideLiquidity s p a b).map
        (fun s1 => (s1.totalShares, s1.reserveMir, s1.reserveUusd)) =
      .ok (Nat.sqrt (a * b), a, b) := by
  have hm : mintAmount s a b = Nat.sqrt (a * b) := by
    simp [mintAmount, h0]
  simp only [provideLiquidity, hm]
  rw [if_neg (by tauto), if_neg hmint, if_neg (by omega)]
  simp [h0, hra, hrb, Except.map]

/-- C2 witness: depositing 69000000 uMIR and 420000000 uusd into the empty
pool mints exactly 170235131 shares and sets reserves (69000000, 420000000). -/
theorem initial_mint_sqrt_witness :
    (provideLiquidity initialState 1 69000000 420000000).map
        (fun s1 => (s1.totalShares, s1.reserveMir, s1.reserveUusd)) =
      .ok (170235131, 69000000, 420000000) := by
  have h := initial_mint_sqrt initialState 1 69000000 420000000 rfl rfl rfl
    (by decide) (by decide) (by rw [sqrt_initial_prod]; decide) (by decide) (by decide)
  rw [h, sqrt_initial_prod]

/-- C3 as stated is false on the floor-division pricing rule: at reserves
(69000000, 420000000) an offer of 1 returns 7, and the post-trade product
(69000001) * (419999993) is strictly below k = 69000000 * 420000000, violating
the claimed lower bound k. -/
theorem curve_invariant_counterexample :
    computeSwap 69000000 420000000 1 = .ok ⟨7, 0⟩ ∧
    ¬(7 < 420000000 ∧
      69000000 * 420000000 ≤ (69000000 + 1) * (420000000 - 7)) := by
  decide

/-- C3 amended: with floor division the return amount is at most R_out, and
the post-trade product (R_in + A) * (R_out - return) lands within one divisor
unit below the pre-trade product: k - (R_in + A) < product ≤ k.  The product
can fall strictly below k, so the claimed inequality product ≥ k holds only up
to this rounding deficit. -/
theorem curve_product_bounds (rIn rOut A : Nat) (hIn : 0 < rIn) (hOut : 0 < rOut)
    (hA : 0 < A) (hfit : rIn + A < UINT128) :
    ∀ out, computeSwap rIn rOut A = .ok out →
      out.returnAmount ≤ rOut ∧
      (rIn + A) * (rOut - out.returnAmount) ≤ rIn * rOut ∧
      rIn * rOut < (rIn + A) * (rOut - out.returnAmount) + (rIn + A) := by
  intro out h
  simp only [computeSwap, if_neg (Nat.not_le.mpr hfit), Except.ok.injEq] at h
  have hd : 0 < rIn + A := by omega
  have hq : rIn * rOut / (rIn + A) ≤ rOut := by
    calc rIn * rOut / (rIn + A) ≤ rIn * rOut / rIn :=
          Nat.div_le_div_left (Nat.le_add_right _ _) hIn
      _ = rOut := Nat.mul_div_cancel_left _ hIn
  have hsub : rOut - out.returnAmount = rIn * rOut / (rIn + A) := by
    rw [← h]
    exact Nat.sub_sub_self hq
  refine ⟨by rw [← h]; exact Nat.sub_le _ _, ?_, ?_⟩
  · rw [hsub]
    calc (rIn + A) * (rIn * rOut / (rIn + A))
        = rIn * rOut / (rIn + A) * (rIn + A) := Nat.mul_comm _ _
      _ ≤ rIn * rOut := Nat.div_mul_le_self _ _
  · rw [hsub]
    have hdm := Nat.div_add_mod (rIn * rOut) (rIn + A)
    have hmod : rIn * rOut % (rIn + A) < rIn + A := Nat.mod_lt _ hd
    calc rIn * rOut
        = (rIn + A) * (rIn * rOut / (rIn + A)) + rIn * rOut % (rIn + A) := hdm.symm
      _ < (rIn + A) * (rIn * rOut / (rIn + A)) + (rIn + A) :=
          Nat.add_lt_add_left hmod _

/-- C3 amended witness: the worked swap instantiates the bounds. -/
theorem curve_product_bounds_witness :
    computeSwap 69000000 420000000 1000000 = Except.ok ⟨6000000, 18000⟩ ∧
    (6000000 ≤ 420000000 ∧
      (69000000 + 1000000) * (420000000 - 6000000) ≤ 69000000 * 420000000 ∧
      69000000 * 420000000 <
        (69000000 + 1000000) * (420000000 - 6000000) + (69000000 + 1000000)) :=
  ⟨by decide,
    curve_product_bounds 69000000 420000000 1000000 (by decide) (by decide)
      (by decide) (by decide) ⟨6000000, 18000⟩ (by decide)⟩

/-- C4: whenever a max-spread tolerance is supplied and the computed spread of
the priced trade exceeds it, the swap fails with MaxSpreadExceeded and the
state reached by the call is the unchanged pre-call state. -/
theorem max_spread_aborts (s : PoolState) (trader A n d : Nat)
    (hMir : s.reserveMir ≠ 0) (hUusd : s.reserveUusd ≠ 0)
    (hfit : s.reserveMir + A < UINT128)
    (hspread : spreadExceeded s.reserveMir s.reserveUusd A
        (s.reserveUusd - s.reserveMir * s.reserveUusd / (s.reserveMir + A)) n d = true) :
    swap s trader A (some (n, d)) = .error .maxSpreadExceeded ∧
    getSwapState s (swap s trader A (some (n, d))) = s := by
  have hc : computeSwap s.reserveMir s.reserveUusd A =
      .ok ⟨s.reserveUusd - s.reserveMir * s.reserveUusd / (s.reserveMir + A),
        (s.reserveUusd - s.reserveMir * s.reserveUusd / (s.reserveMir + A)) * 3 / 1000⟩ := by
    simp only [computeSwap, if_neg (Nat.not_le.mpr hfit)]
  have hswap : swap s trader A (some (n, d)) = .error .maxSpreadExceeded := by
    unfold swap
    rw [if_neg (by tauto)]
    rw [hc]
    simp [hspread]
  exact ⟨hswap, by rw [hswap]; rfl⟩

/-- C4 witness: offering 50000000 uMIR against the post-swap pool (70000000,
414018001) under a 1% tolerance fails with MaxSpreadExceeded and leaves the
state unchanged. -/
theorem max_spread_aborts_witness :
    swap poolAfterSwap 2 50000000 (some (1, 100)) = .error .maxSpreadExceeded ∧
    getSwapState poolAfterSwap (swap poolAfterSwap 2 50000000 (some (1, 100))) =
      poolAfterSwap :=
  max_spread_aborts poolAfterSwap 2 50000000 1 100 (by decide) (by decide)
    (by decide) (by decide)

/-- C5: each of the three operations is atomic: a call that fails leaves the
state reached by the call identical to the pre-call state, every error being
detected before any mutation. -/
theorem operations_atomic (s : PoolState) (p a b trader A : Nat)
    (ms : Option (Nat × Nat)) (holder shares : Nat) :
    ((provideLiquidity s p a b).isOk = false →
      getState s (provideLiquidity s p a b) = s) ∧
    ((swap s trader A ms).isOk = false →
      getSwapState s (swap s trader A ms) = s) ∧
    ((withdrawLiquidity s holder shares).isOk = false →
      getState s (withdrawLiquidity s holder shares) = s) := by
  refine ⟨?_, ?_, ?_⟩ <;> intro h
  · cases hp : provideLiquidity s p a b with
    | ok s1 => rw [hp] at h; simp [Except.isOk, Except.toBool] at h
    | error e => simp [getState, hp]
  · cases hp : swap s trader A ms with
    | ok r => rw [hp] at h; simp [Except.isOk, Except.toBool] at h
    | error e => simp [getSwapState, hp]
  · cases hp : withdrawLiquidity s holder shares with
    | ok s1 => rw [hp] at h; simp [Except.isOk, Except.toBool] at h
    | error e => simp [getState, hp]

/-- C5 witness: a zero-amount provide, a swap against the empty pool, and a
zero-share withdraw all fail and leave the initial world unchanged. -/
theorem operations_atomic_witness :
    (provideLiquidity initialState 1 0 0).isOk = false ∧
    (swap initialState 2 5 none).isOk = false ∧
    (withdrawLiquidity initialState 1 0).isOk = false ∧
    getState initialState (provideLiquidity initialState 1 0 0) = initialState ∧
    getSwapState initialState (swap initialState 2 5 none) = initialState ∧
    getState initialState (withdrawLiquidity initialState 1 0) = initialState :=
  ⟨by decide, by decide, by decide,
    (operations_atomic initialState 1 0 0 2 5 none 1 0).1 (by decide),
    (operations_atomic initialState 1 0 0 2 5 none 1 0).2.1 (by decide),
    (operations_atomic initialState 1 0 0 2 5 none 1 0).2.2 (by decide)⟩

/-- C6: against an Active pool, a swap offering 0 always succeeds, returns
zero output and zero fee, and leaves the whole state unchanged. -/
theorem zero_offer_noop (s : PoolState) (trader : Nat) (ms : Option (Nat × Nat))
    (hMir : s.reserveMir ≠ 0) (hUusd : s.reserveUusd ≠ 0)
    (hfit : s.reserveMir < UINT128) :
    swap s trader 0 ms = .ok (s, 0, 0) := by
  have hc : computeSwap s.reserveMir s.reserveUusd 0 = .ok ⟨0, 0⟩ := by
    simp only [computeSwap, Nat.add_zero, if_neg (Nat.not_le.mpr hfit)]
    rw [Nat.mul_div_cancel_left _ (Nat.pos_of_ne_zero hMir)]
    simp
  unfold swap
  rw [if_neg (by tauto), hc]
  have hnospread : ∀ nd : Nat × Nat,
      spreadExceeded s.reserveMir s.reserveUusd 0 0 nd.1 nd.2 = false := by
    intro nd
    simp [spreadExceeded]
  cases ms with
  | none =>
    simp only [deductTax, addTax]
    rw [if_neg (by simp), if_neg (by omega), if_neg (by simp)]
    refine congrArg Except.ok ?_
    refine Prod.ext ?_ rfl
    ext h <;> simp
  | some nd =>
    simp only [hnospread nd, deductTax, addTax]
    rw [if_neg (by simp), if_neg (by omega), if_neg (by simp)]
    refine congrArg Except.ok ?_
    refine Prod.ext ?_ rfl
    ext h <;> simp

/-- C6 witness: a zero offer against the scenario pool is a successful no-op
with zero output and zero fee. -/
theorem zero_offer_noop_witness :
    swap poolAfterProvide 2 0 none = .ok (poolAfterProvide, 0, 0) :=
  zero_offer_noop poolAfterProvide 2 none (by decide) (by decide) (by decide)

/-- Payout bound for the round trip: if the minted shares satisfy
m * R ≤ x * T for a reserve R grown by the deposit x, the proportional payout
of the grown reserve is at most the deposit. -/
theorem payout_le_deposit (R x T m : Nat) (hT : 0 < T + m) (h : m * R ≤ x * T) :
    (R + x) * m / (T + m) ≤ x := by
  have h1 : (R + x) * m ≤ x * (T + m) := by
    have h2 : R * m + x * m ≤ x * T + x * m :=
      Nat.add_le_add_right (by rw [Nat.mul_comm]; exact h) _
    calc (R + x) * m = R * m + x * m := Nat.add_mul _ _ _
      _ ≤ x * T + x * m := h2
      _ = x * (T + m) := (Nat.mul_add _ _ _).symm
  calc (R + x) * m / (T + m) ≤ x * (T + m) / (T + m) := Nat.div_le_div_right h1
    _ = x := Nat.mul_div_cancel _ hT

/-- C7 as stated is false: on the Active pool (100, 100) with 100 shares, an
unbalanced deposit of (1000, 1) mints 1 share, and withdrawing that share pays
back only (10, 1), leaving the MIR reserve at 1090 — 990 units above its
pre-deposit value of 100, far outside integer-rounding tolerance — while the
share supply does return to 100. -/
theorem round_trip_counterexample :
    (roundTrip unbalancedState 1 1000 1).map
        (fun s2 => (s2.reserveMir, s2.reserveUusd, s2.totalShares)) =
      .ok (1090, 100, 100) ∧
    unbalancedState.reserveMir = 100 ∧
    ¬(1090 - 100 ≤ 1) := by
  decide

/-- C7 amended: for every Active pool and successful deposit, withdrawing all
the shares that deposit minted returns the total share supply exactly to its
pre-deposit value and leaves each reserve between its pre-deposit value and
the pre-deposit value plus that side's deposit; the reserves need not return
to within rounding distance when the deposit is unbalanced. -/
theorem round_trip_bounds (s : PoolState) (p a b : Nat)
    (hT : s.totalShares ≠ 0) (hra : s.reserveMir ≠ 0) (hrb : s.reserveUusd ≠ 0)
    (ha : a ≠ 0) (hb : b ≠ 0) (hmint : mintAmount s a b ≠ 0)
    (hma : a ≤ s.mirBal p) (hub : b ≤ s.uusdBal p) :
    (roundTrip s p a b).isOk = true ∧
    (getState s (roundTrip s p a b)).totalShares = s.totalShares ∧
    s.reserveMir ≤ (getState s (roundTrip s p a b)).reserveMir ∧
    (getState s (roundTrip s p a b)).reserveMir ≤ s.reserveMir + a ∧
    s.reserveUusd ≤ (getState s (roundTrip s p a b)).reserveUusd ∧
    (getState s (roundTrip s p a b)).reserveUusd ≤ s.reserveUusd + b := by
  set m := mintAmount s a b with hmdef
  have hmra : m * s.reserveMir ≤ a * s.totalShares := by
    have h1 : m ≤ a * s.totalShares / s.reserveMir := by
      rw [hmdef]
      simp only [mintAmount, if_neg hT]
      exact Nat.min_le_left _ _
    calc m * s.reserveMir ≤ a * s.totalShares / s.reserveMir * s.reserveMir :=
          Nat.mul_le_mul_right _ h1
      _ ≤ a * s.totalShares := Nat.div_mul_le_self _ _
  have hmrb : m * s.reserveUusd ≤ b * s.totalShares := by
    have h1 : m ≤ b * s.totalShares / s.reserveUusd := by
      rw [hmdef]
      simp only [mintAmount, if_neg hT]
      exact Nat.min_le_right _ _
    calc m * s.reserveUusd ≤ b * s.totalShares / s.reserveUusd * s.reserveUusd :=
          Nat.mul_le_mul_right _ h1
      _ ≤ b * s.totalShares := Nat.div_mul_le_self _ _
  have hTm : 0 < s.totalShares + m := by
    have := Nat.pos_of_ne_zero hT
    omega
  have haOut : (s.reserveMir + a) * m / (s.totalShares + m) ≤ a :=
    payout_le_deposit _ _ _ _ hTm hmra
  have hbOut : (s.reserveUusd + b) * m / (s.totalShares + m) ≤ b :=
    payout_le_deposit _ _ _ _ hTm hmrb
  have hprov : provideLiquidity s p a b = .ok
      { s with
        reserveMir := s.reserveMir + a
        reserveUusd := s.reserveUusd + b
        totalShares := s.totalShares + m
        lpBal := fun h => if h = p then s.lpBal h + m else s.lpBal h
        mirBal := fun h => if h = p then s.mirBal h - a else s.mirBal h
        uusdBal := fun h => if h = p then s.uusdBal h - b else s.uusdBal h } := by
    simp only [provideLiquidity, ← hmdef]
    rw [if_neg (by tauto), if_neg hmint, if_neg (by omega)]
  have hrt : roundTrip s p a b = .ok
      { s with
        reserveMir := s.reserveMir + a - (s.reserveMir + a) * m / (s.totalShares + m)
        reserveUusd := s.reserveUusd + b - (s.reserveUusd + b) * m / (s.totalShares + m)
        totalShares := s.totalShares + m - m
        lpBal := fun h => if h = p then (if h = p then s.lpBal h + m else s.lpBal h) - m
          else if h = p then s.lpBal h + m else s.lpBal h
        mirBal := fun h => if h = p then (if h = p then s.mirBal h - a else s.mirBal h) +
            (s.reserveMir + a) * m / (s.totalShares + m)
          else if h = p then s.mirBal h - a else s.mirBal h
        uusdBal := fun h => if h = p then (if h = p then s.uusdBal h - b else s.uusdBal h) +
            (s.reserveUusd + b) * m / (s.totalShares + m)
          else if h = p then s.uusdBal h - b else s.uusdBal h } := by
    rw [roundTrip, hprov]
    show withdrawLiquidity _ p _ = _
    simp only [Nat.add_sub_cancel_left]
    rw [withdrawLiquidity]
    rw [if_neg hmint, if_neg (by simp only []; omega), if_neg (by simp)]
  rw [hrt]
  simp only [getState]
  obtain ⟨x, hx⟩ : ∃ x, (s.reserveMir + a) * m / (s.totalShares + m) = x := ⟨_, rfl⟩
  obtain ⟨y, hy⟩ : ∃ y, (s.reserveUusd + b) * m / (s.totalShares + m) = y := ⟨_, rfl⟩
  rw [hx] at haOut ⊢
  rw [hy] at hbOut ⊢
  refine ⟨rfl, ?_, ?_, ?_, ?_, ?_⟩ <;> omega

/-- C7 amended witness: a balanced deposit of (1000, 1000) on the (100, 100)
pool with 100 shares round-trips back to the original reserves and supply. -/
theorem round_trip_bounds_witness :
    (roundTrip unbalancedState 1 1000 1000).isOk = true ∧
    (getState unbalancedState (roundTrip unbalancedState 1 1000 1000)).totalShares = 100 ∧
    100 ≤ (getState unbalancedState (roundTrip unbalancedState 1 1000 1000)).reserveMir ∧
    (getState unbalancedState (roundTrip unbalancedState 1 1000 1000)).reserveMir ≤ 100 + 1000 ∧
    100 ≤ (getState unbalancedState (roundTrip unbalancedState 1 1000 1000)).reserveUusd ∧
    (getState unbalancedState (roundTrip unbalancedState 1 1000 1000)).reserveUusd ≤ 100 + 1000 :=
  round_trip_bounds unbalancedState 1 1000 1000 (by decide) (by decide) (by decide)
    (by decide) (by decide) (by decide) (by decide) (by decide)

/-- C8: against an Active pool, an offer amount large enough that
R_in + A reaches the available integer precision makes the swap fail with
ArithmeticOverflow, before any mutation: the state reached by the call is the
unchanged pre-call state. -/
theorem overflow_aborts (s : PoolState) (trader A : Nat) (ms : Option (Nat × Nat))
    (hMir : s.reserveMir ≠ 0) (hUusd : s.reserveUusd ≠ 0)
    (hbig : UINT128 ≤ s.reserveMir + A) :
    swap s trader A ms = .error .arithmeticOverflow ∧
    getSwapState s (swap s trader A ms) = s := by
  have hswap : swap s trader A ms = .error .arithmeticOverflow := by
    unfold swap computeSwap
    rw [if_neg (by tauto), if_pos hbig]
  exact ⟨hswap, by rw [hswap]; rfl⟩

/-- C8 witness: an offer of 2^128 against a unit pool overflows and leaves the
state unchanged. -/
theorem overflow_aborts_witness :
    swap unbalancedState 2 (2 ^ 128) none = .error .arithmeticOverflow ∧
    getSwapState unbalancedState (swap unbalancedState 2 (2 ^ 128) none) =
      unbalancedState :=
  overflow_aborts unbalancedState 2 (2 ^ 128) none (by decide) (by decide) (by decide)

/-- C9: no swap call ever changes the liquidity-share total supply or any
holder's share balance; in the worked scenario user 1 still holds exactly
170235131 uLP after user 2's swap. -/
theorem swap_preserves_shares :
    (∀ (s : PoolState) (trader A : Nat) (ms : Option (Nat × Nat)) (h : Nat),
      (getSwapState s (swap s trader A ms)).totalShares = s.totalShares ∧
      (getSwapState s (swap s trader A ms)).lpBal h = s.lpBal h) ∧
    (swap poolAfterProvide 2 1000000 none).isOk = true ∧
    (getSwapState poolAfterProvide (swap poolAfterProvide 2 1000000 none)).lpBal 1 =
      170235131 := by
  refine ⟨?_, by decide, by decide⟩
  intro s trader A ms h
  constructor <;> (unfold swap; dsimp only; repeat' split) <;> rfl

/-- C10: every successful swap debits the trader's offer-asset balance by
exactly the offer amount, a full fill with no refund. -/
theorem swap_debits_full_offer (s : PoolState) (trader A : Nat)
    (ms : Option (Nat × Nat)) (hok : (swap s trader A ms).isOk = true) :
    (getSwapState s (swap s trader A ms)).mirBal trader + A = s.mirBal trader := by
  revert hok
  unfold swap
  dsimp only
  repeat' split
  all_goals intro hok
  all_goals simp [Except.isOk, Except.toBool, getSwapState] at hok ⊢
  all_goals omega

/-- C10 witness: in the worked scenario user 2's uMIR balance moves from
10000000000 to exactly 9999000000 on offering 1000000. -/
theorem swap_debits_full_offer_witness :
    (swap poolAfterProvide 2 1000000 none).isOk = true ∧
    (getSwapState poolAfterProvide (swap poolAfterProvide 2 1000000 none)).mirBal 2 +
        1000000 = poolAfterProvide.mirBal 2 ∧
    (getSwapState poolAfterProvide (swap poolAfterProvide 2 1000000 none)).mirBal 2 =
      9999000000 :=
  ⟨by decide, swap_debits_full_offer poolAfterProvide 2 1000000 none (by decide),
    by decide⟩

end TerraSwap
